import Mathlib

/-!
Verification of the keyword similarity and ranking pipeline implemented in
`scripts/knowledge/keyword_variants.py` (class `KeywordVariantGenerator`).

Modelling conventions:
* Python floats are modelled as rationals (`ℚ`); the proved properties are
  order/clamping facts that hold over any ordered field.
* The two `cosine_similarity` calls against the fitted tf-idf vector spaces
  are calls into an external library (scikit-learn) over the fixed corpus;
  they are abstracted as explicit input arrays (`charSims`, `wordSims`), one
  score per corpus row.  Facts about those arrays (cosine similarities of
  nonnegative tf-idf vectors lie in `[0, 1]`) appear as hypotheses.
* Python's stable `list.sort(key=..., reverse=True)` is modelled by Mathlib's
  stable `List.insertionSort` with the relation "efficiency index descending";
  any stable sort computes the same list.
* A Python `try`/`except` that swallows an arithmetic error and returns a
  default dictionary is modelled by an explicit branch on the error condition
  (division by a zero total weight).
-/

/-- One row of the `semrush_keywords` corpus table, as used by the pipeline. -/
structure CorpusEntry where
  keyword : String
  search_volume : ℚ
  cpc : ℚ
  keyword_difficulty : ℚ
  competition : ℚ
deriving DecidableEq

/-- The `metrics` dictionary carried inside a similarity match
(`keyword_variants.py:839-846` and `885-892`). -/
structure KeywordMetrics where
  search_volume : ℚ
  cpc : ℚ
  keyword_difficulty : ℚ
  competition : ℚ
deriving DecidableEq

/-- One element of the list returned by `_find_similar_keywords`. -/
structure SimilarityMatch where
  keyword : String
  similarity : ℚ
  metrics : KeywordMetrics
deriving DecidableEq

/-- The dictionary returned by `_estimate_metrics` (`keyword_variants.py:905`). -/
structure EstimatedMetrics where
  search_volume : ℚ
  cpc : ℚ
  keyword_difficulty : ℚ
  competition : ℚ
  confidence : ℚ
deriving DecidableEq

/-- The `KeywordVariant` pydantic model (`keyword_variants.py:43-55`).
`search_volume` is declared `int` there; modelling it as `ℚ` only widens the
input space of the batch operations verified below. -/
structure KeywordVariant where
  keyword : String
  source : String
  search_volume : ℚ
  cpc : ℚ
  keyword_difficulty : ℚ
  competition_percentage : ℚ
  efficiency_index : ℚ
  confidence_score : ℚ
  similar_keywords : List SimilarityMatch
  explanation : String
deriving DecidableEq

/-- Python `s.lower()` (ASCII case folding, which covers the keyword data). -/
def pyLower (s : String) : String :=
  ⟨s.data.map Char.toLower⟩

/-- Helper for `pySplit`: gather maximal non-whitespace runs. -/
def splitWsAux : List Char → List Char → List (List Char)
  | [], acc => if acc.isEmpty then [] else [acc.reverse]
  | c :: cs, acc =>
      if c.isWhitespace then
        if acc.isEmpty then splitWsAux cs [] else acc.reverse :: splitWsAux cs []
      else splitWsAux cs (c :: acc)

/-- Python `s.split()` with no argument: split on whitespace runs and drop
empty pieces (used as `len(keyword.split())`). -/
def pySplit (s : String) : List String :=
  (splitWsAux s.data []).map (fun l => ⟨l⟩)

/-- `len(keyword.split())`. -/
def wordCount (k : String) : ℕ := (pySplit k).length

/-- The six interrogative substrings tested at `keyword_variants.py:970-973`
and `1209-1212`. -/
def questionWords : List String := ["how", "what", "why", "when", "where", "which"]

/-- `any(q in keyword.lower() for q in ["how", ...])`: substring containment
against the lower-cased keyword, the identical expression at both call sites
(`_estimate_metrics` line 970 and `_rank_and_prioritize` line 1209). -/
def isQuestionKeyword (k : String) : Bool :=
  questionWords.any (fun q => decide (q.data <:+: (pyLower k).data))

/-- `"nike" in keyword.lower()` (`keyword_variants.py:978`). -/
def containsNike (k : String) : Bool :=
  decide ("nike".data <:+: (pyLower k).data)

/-- The all-zero dictionary returned when no similar keywords were found
(`keyword_variants.py:909-916`), and equally by the `except` handler
(`994-1002`) when the weighted average divides by a zero total weight. -/
def defaultEstimate : EstimatedMetrics :=
  { search_volume := 0, cpc := 0, keyword_difficulty := 0, competition := 0, confidence := 0 }

/-- `sum(kw["metrics"][f] * kw["similarity"] for kw in similar_keywords)`. -/
def weightedSum (f : SimilarityMatch → ℚ) (ms : List SimilarityMatch) : ℚ :=
  (ms.map (fun kw => f kw * kw.similarity)).sum

/-- `sum(kw["similarity"] for kw in similar_keywords)` (line 930). -/
def totalWeight (ms : List SimilarityMatch) : ℚ :=
  (ms.map (fun kw => kw.similarity)).sum

/-- `_estimate_metrics` (`keyword_variants.py:905-1002`).  The branch on
`totalWeight = 0` models the `ZeroDivisionError` raised by the float divisions
at lines 936-960 and caught by the handler at 994-1002, which returns the
all-zero dictionary. -/
def estimateMetrics (keyword : String) (similar : List SimilarityMatch) : EstimatedMetrics :=
  if similar.isEmpty then defaultEstimate
  else
    match similar.find? (fun kw => decide (kw.similarity > 0.99)) with
    | some kw =>
        { search_volume := kw.metrics.search_volume, cpc := kw.metrics.cpc,
          keyword_difficulty := kw.metrics.keyword_difficulty,
          competition := kw.metrics.competition, confidence := 1 }
    | none =>
        let tw := totalWeight similar
        let confidence := min 1 (tw / (similar.length : ℚ) * 2)
        if tw = 0 then defaultEstimate
        else
          let sv0 := weightedSum (fun kw => kw.metrics.search_volume) similar / tw
          let cpc0 := weightedSum (fun kw => kw.metrics.cpc) similar / tw
          let kd := weightedSum (fun kw => kw.metrics.keyword_difficulty) similar / tw
          let comp0 := weightedSum (fun kw => kw.metrics.competition) similar / tw
          let sv1 := if wordCount keyword > 3 then sv0 * 0.8 else sv0
          let comp1 := if wordCount keyword > 3 then comp0 * 0.7 else comp0
          let sv2 := if isQuestionKeyword keyword then sv1 * 0.9 else sv1
          let cpc1 := if isQuestionKeyword keyword then cpc0 * 0.9 else cpc0
          let sv3 := if containsNike keyword then sv2 * 1.2 else sv2
          let comp2 := if containsNike keyword then comp1 * 1.1 else comp1
          { search_volume := ((⌊max 0 sv3⌋ : ℤ) : ℚ),
            cpc := max 0 cpc1,
            keyword_difficulty := max 0 (min 100 kd),
            competition := max 0 (min 1 comp2),
            confidence := confidence }

/-- `keyword_data_map = {item["keyword"]: item for item in self.semrush_keywords}`
(`keyword_variants.py:333-335`).  Keys are the raw keyword strings as stored,
not lower-cased; a later duplicate key overwrites an earlier one. -/
def keywordDataMap (corpus : List CorpusEntry) (key : String) : Option CorpusEntry :=
  corpus.reverse.find? (fun e => e.keyword == key)

/-- The four metric fields extracted from a corpus row. -/
def entryMetrics (e : CorpusEntry) : KeywordMetrics :=
  { search_volume := e.search_volume, cpc := e.cpc,
    keyword_difficulty := e.keyword_difficulty, competition := e.competition }

/-- `(char_similarities * 0.4) + (word_similarities * 0.6)`
(`keyword_variants.py:866-868`). -/
def combinedSimilarities (charSims wordSims : List ℚ) : List ℚ :=
  List.zipWith (fun c w => c * 0.4 + w * 0.6) charSims wordSims

/-- `combined_similarities.argsort()`: indices sorted by value ascending.
numpy's tie order is implementation-defined; a stable order is chosen here
(none of the verified properties depends on the tie order). -/
def argsortAsc (vals : List ℚ) : List ℕ :=
  (List.range vals.length).insertionSort (fun i j => vals.getD i 0 ≤ vals.getD j 0)

/-- `argsort()[-top_n:][::-1]` (line 871): the last `top_n` indices, reversed. -/
def topIndices (vals : List ℚ) (n : ℕ) : List ℕ :=
  ((argsortAsc vals).drop ((argsortAsc vals).length - n)).reverse

/-- `_find_similar_keywords` (`keyword_variants.py:828-903`).  `charSims` and
`wordSims` are the flattened `cosine_similarity` arrays of the candidate
against the corpus (one entry per corpus row), abstracting the external
scikit-learn computation. -/
def findSimilarKeywords (corpus : List CorpusEntry) (charSims wordSims : List ℚ)
    (keyword : String) (top_n : ℕ) : List SimilarityMatch :=
  match keywordDataMap corpus (pyLower keyword) with
  | some e => [{ keyword := pyLower keyword, similarity := 1, metrics := entryMetrics e }]
  | none =>
      let combined := combinedSimilarities charSims wordSims
      (topIndices combined top_n).filterMap (fun idx =>
        let score := combined.getD idx 0
        if score > 0.3 then
          match corpus[idx]? with
          | some e => some { keyword := e.keyword, similarity := score, metrics := entryMetrics e }
          | none => none
        else none)

/-- `max(iterable)` over a nonempty Python list (callers guard emptiness). -/
def pyMax : List ℚ → ℚ
  | [] => 0
  | x :: xs => xs.foldl max x

/-- The per-keyword body of `_calculate_composite_metrics`
(`keyword_variants.py:1059-1098`): only `efficiency_index` is assigned. -/
def compositeUpdate (maxVolume maxCpc : ℚ) (kw : KeywordVariant) : KeywordVariant :=
  let volume_score := min 1 (kw.search_volume / maxVolume)
  let cpc_score := min 1 (kw.cpc / maxCpc)
  let difficulty_inverse := 1 - kw.keyword_difficulty / 100
  let competition_inverse := 1 - kw.competition_percentage
  let raw := volume_score * 0.4 + difficulty_inverse * 0.25
      + competition_inverse * 0.25 + cpc_score * 0.1
  let adjusted := raw * (0.5 + 0.5 * kw.confidence_score)
  { kw with efficiency_index := max 0 (min 1 adjusted) }

/-- `_calculate_composite_metrics` (`keyword_variants.py:1047-1105`).
`max(...) or 1` replaces a zero maximum by 1 (lines 1056-1057). -/
def calculateCompositeMetrics (keywords : List KeywordVariant) : List KeywordVariant :=
  if keywords.isEmpty then []
  else
    let maxVolume0 := pyMax (keywords.map (fun kw => kw.search_volume))
    let maxVolume := if maxVolume0 = 0 then 1 else maxVolume0
    let maxCpc0 := pyMax (keywords.map (fun kw => kw.cpc))
    let maxCpc := if maxCpc0 = 0 then 1 else maxCpc0
    keywords.map (compositeUpdate maxVolume maxCpc)

/-- The ordering key of `sort(key=lambda k: k.efficiency_index, reverse=True)`. -/
def effGeProp (a b : KeywordVariant) : Prop :=
  b.efficiency_index ≤ a.efficiency_index

instance : DecidableRel effGeProp :=
  fun a b => inferInstanceAs (Decidable (b.efficiency_index ≤ a.efficiency_index))

/-- Python's stable descending sort by `efficiency_index`. -/
def effDescSort (l : List KeywordVariant) : List KeywordVariant :=
  l.insertionSort effGeProp

/-- Bucket test applied first in the `elif` chain (`keyword_variants.py:1209`). -/
def inQuestionBucket (kw : KeywordVariant) : Bool :=
  isQuestionKeyword kw.keyword

/-- `elif word_count <= 2` (line 1215). -/
def inShortTail (kw : KeywordVariant) : Bool :=
  !isQuestionKeyword kw.keyword && decide (wordCount kw.keyword ≤ 2)

/-- `elif word_count <= 4` (line 1217). -/
def inMediumTail (kw : KeywordVariant) : Bool :=
  !isQuestionKeyword kw.keyword && !decide (wordCount kw.keyword ≤ 2)
    && decide (wordCount kw.keyword ≤ 4)

/-- The final `else` branch (line 1219). -/
def inLongTail (kw : KeywordVariant) : Bool :=
  !isQuestionKeyword kw.keyword && !decide (wordCount kw.keyword ≤ 2)
    && !decide (wordCount kw.keyword ≤ 4)

/-- `ranked_keywords` after the primary descending sort (line 1194-1197). -/
def rankedOf (keywords : List KeywordVariant) : List KeywordVariant :=
  effDescSort keywords

/-- `diverse_top` after its in-place sort (`keyword_variants.py:1226-1237`):
per-bucket heads (5 short, 8 medium, 5 long, 3 question) concatenated and
re-sorted by efficiency descending.  (`segment[:n] if segment else []` is
`List.take n` on every input.) -/
def diverseTop (keywords : List KeywordVariant) : List KeywordVariant :=
  let ranked := rankedOf keywords
  let top_short := (effDescSort (ranked.filter inShortTail)).take 5
  let top_medium := (effDescSort (ranked.filter inMediumTail)).take 8
  let top_long := (effDescSort (ranked.filter inLongTail)).take 5
  let top_questions := (effDescSort (ranked.filter inQuestionBucket)).take 3
  effDescSort (top_short ++ top_medium ++ top_long ++ top_questions)

/-- `_rank_and_prioritize` (`keyword_variants.py:1185-1250`): the sorted
diverse top, followed by every ranked keyword not in it (membership by
field equality, as for pydantic models). -/
def rankAndPrioritize (keywords : List KeywordVariant) : List KeywordVariant :=
  if keywords.isEmpty then []
  else
    diverseTop keywords
      ++ (rankedOf keywords).filter (fun k => decide (¬ k ∈ diverseTop keywords))

/-- The failure raised by scikit-learn's `TfidfVectorizer.fit_transform` when
no terms can be extracted from the documents (`ValueError: empty vocabulary`). -/
inductive IndexBuildError
  | emptyVocabulary
deriving DecidableEq

/-- Models scikit-learn `TfidfVectorizer.fit_transform` at the precision the
initialization path needs: fitting an empty document list always raises the
empty-vocabulary error; a nonempty corpus keyword list yields a nonempty
char-2..5-gram vocabulary and succeeds. -/
def tfidfFitTransform (docs : List String) : Except IndexBuildError Unit :=
  if docs.isEmpty then Except.error IndexBuildError.emptyVocabulary else Except.ok ()

/-- The state `_initialize_keyword_similarity` leaves behind on success. -/
structure KeywordSimilarityState where
  semrush_keywords : List CorpusEntry
deriving DecidableEq

/-- `_initialize_keyword_similarity` (`keyword_variants.py:321-353`): load the
corpus, build the lookup map, fit the char-level and word-level vectorizers on
the keyword list.  The `except` clause logs and re-raises (line 353), so any
fit error surfaces to the caller. -/
def initializeKeywordSimilarity (corpus : List CorpusEntry) :
    Except IndexBuildError KeywordSimilarityState := do
  let keywords := corpus.map (fun e => e.keyword)
  let _ ← tfidfFitTransform keywords
  let _ ← tfidfFitTransform keywords
  pure { semrush_keywords := corpus }

/-- A keyword variant carrying only a keyword text and an efficiency index,
as the ranker consumes them. -/
def mkKV (k : String) (eff : ℚ) : KeywordVariant :=
  { keyword := k, source := "generated", search_volume := 0, cpc := 0,
    keyword_difficulty := 0, competition_percentage := 0,
    efficiency_index := eff, confidence_score := 0,
    similar_keywords := [], explanation := "" }

/-- A keyword variant erased down to everything except `efficiency_index`. -/
def clearEfficiency (kw : KeywordVariant) : KeywordVariant :=
  { kw with efficiency_index := 0 }

/-- C1 (amended): with an empty match list, `_estimate_metrics` returns the
all-zero dictionary (volume 0, cpc 0, difficulty 0, competition 0,
confidence 0). -/
theorem estimate_empty_matches_eq_default (k : String) :
    estimateMetrics k [] = defaultEstimate := rfl

/-- C1 counterexample: on the empty match list the result has search volume 0
(not about 100) and confidence 0, which is below the documented 0.2-0.3
low-confidence band. -/
theorem estimate_empty_defaults_counterexample :
    (estimateMetrics "running" []).search_volume = 0 ∧
      (estimateMetrics "running" []).confidence = 0 ∧
      ¬ (0.2 : ℚ) ≤ (estimateMetrics "running" []).confidence := by
  refine ⟨rfl, rfl, ?_⟩
  show ¬ (0.2 : ℚ) ≤ (defaultEstimate).confidence
  norm_num [defaultEstimate]

/-- C3: building the keyword index from an empty corpus fails with the
empty-vocabulary error raised while fitting the tf-idf vectorizers; the
`except` clause re-raises, so the failure surfaces to the caller and
initialization never silently yields a state. -/
theorem initialize_empty_corpus_fails :
    initializeKeywordSimilarity [] = Except.error IndexBuildError.emptyVocabulary := rfl

/-- C9: the composite scorer changes only `efficiency_index`: erasing that
field from every element of the output gives the input list with every other
field, the length and the element order intact. -/
theorem composite_frame (kws : List KeywordVariant) :
    (calculateCompositeMetrics kws).map clearEfficiency = kws.map clearEfficiency ∧
      (calculateCompositeMetrics kws).length = kws.length := by
  cases kws with
  | nil => exact ⟨rfl, rfl⟩
  | cons a as =>
      constructor
      · simp only [calculateCompositeMetrics, List.isEmpty_cons, Bool.false_eq_true,
          if_false, List.map_map]
        exact List.map_congr_left (fun kw _ => rfl)
      · simp [calculateCompositeMetrics]

/-- C10: the interrogative test shared verbatim by `_estimate_metrics` and
`_rank_and_prioritize` fires exactly when one of the six question words occurs
as a substring of the lower-cased keyword — even inside a larger word:
"showcase" triggers it although none of its whitespace-separated words is
itself a question word. -/
theorem question_check_substring :
    (∀ k : String, isQuestionKeyword k = true ↔
        ∃ q, q ∈ questionWords ∧ q.data <:+: (pyLower k).data) ∧
      (∀ kw : KeywordVariant, inQuestionBucket kw = isQuestionKeyword kw.keyword) ∧
      isQuestionKeyword "showcase" = true ∧
      (pySplit "showcase").all (fun w => decide (¬ w ∈ questionWords)) = true := by
  refine ⟨?_, fun kw => rfl, by decide, by decide⟩
  intro k
  simp [isQuestionKeyword, List.any_eq_true]

/-- A corpus row carrying malformed metrics: negative volume and cpc,
difficulty above 100, competition above 1. -/
def badMetrics : KeywordMetrics :=
  { search_volume := -5, cpc := -2, keyword_difficulty := 150, competition := 2 }

/-- An exact (similarity 1) match carrying the malformed metrics. -/
def badExactMatch : SimilarityMatch :=
  { keyword := "bad", similarity := 1, metrics := badMetrics }

/-- C5 counterexample: on the exact-match path (similarity above 0.99) the
estimator returns the corpus metrics verbatim, so a malformed row escapes
every clamp: difficulty 150 above 100, negative search volume, competition 2
above 1. -/
theorem estimate_clamp_counterexample :
    (estimateMetrics "x" [badExactMatch]).keyword_difficulty = 150 ∧
      ¬ (estimateMetrics "x" [badExactMatch]).keyword_difficulty ≤ 100 ∧
      (estimateMetrics "x" [badExactMatch]).search_volume = -5 ∧
      ¬ 0 ≤ (estimateMetrics "x" [badExactMatch]).search_volume ∧
      ¬ (estimateMetrics "x" [badExactMatch]).competition ≤ 1 := by
  have hfind : List.find? (fun kw => decide (kw.similarity > 0.99)) [badExactMatch]
      = some badExactMatch := by
    rw [List.find?_cons_of_pos]
    norm_num [badExactMatch]
  have h0 : estimateMetrics "x" [badExactMatch]
      = { search_volume := -5, cpc := -2, keyword_difficulty := 150,
          competition := 2, confidence := 1 } := by
    unfold estimateMetrics
    simp only [List.isEmpty_cons, Bool.false_eq_true, if_false]
    rw [hfind]
    rfl
  rw [h0]
  norm_num

/-- C5 (amended): the clamps hold on the empty, zero-weight and
weighted-average paths, i.e. whenever no match has similarity above 0.99;
the exact-match path is excluded because it returns corpus metrics verbatim
and unclamped. -/
theorem estimate_metrics_clamped (k : String) (ms : List SimilarityMatch)
    (h : ∀ m ∈ ms, ¬ (0.99 : ℚ) < m.similarity) :
    0 ≤ (estimateMetrics k ms).keyword_difficulty ∧
      (estimateMetrics k ms).keyword_difficulty ≤ 100 ∧
      0 ≤ (estimateMetrics k ms).competition ∧
      (estimateMetrics k ms).competition ≤ 1 ∧
      0 ≤ (estimateMetrics k ms).search_volume ∧
      0 ≤ (estimateMetrics k ms).cpc := by
  have hfind : ms.find? (fun kw => decide (kw.similarity > 0.99)) = none := by
    rw [List.find?_eq_none]
    intro x hx
    simpa using h x hx
  by_cases he : ms.isEmpty = true
  · simp only [estimateMetrics, he, if_true]
    norm_num [defaultEstimate]
  · simp only [estimateMetrics, he, Bool.false_eq_true, if_false, hfind]
    by_cases htw : totalWeight ms = 0
    · simp only [htw, if_true]
      norm_num [defaultEstimate]
    · simp only [htw, if_false]
      refine ⟨le_max_left 0 _, max_le (by norm_num) (min_le_left 100 _),
        le_max_left 0 _, max_le (by norm_num) (min_le_left 1 _),
        ?_, le_max_left 0 _⟩
      exact_mod_cast Int.floor_nonneg.mpr (le_max_left 0 _)

/-- A non-exact match (similarity one half) carrying the malformed metrics. -/
def halfMatch : SimilarityMatch :=
  { keyword := "near", similarity := 1/2, metrics := badMetrics }

/-- Witness for C5 (amended) at a concrete non-exact match list. -/
theorem estimate_metrics_clamped_witness :
    0 ≤ (estimateMetrics "x" [halfMatch]).keyword_difficulty ∧
      (estimateMetrics "x" [halfMatch]).keyword_difficulty ≤ 100 ∧
      0 ≤ (estimateMetrics "x" [halfMatch]).competition ∧
      (estimateMetrics "x" [halfMatch]).competition ≤ 1 ∧
      0 ≤ (estimateMetrics "x" [halfMatch]).search_volume ∧
      0 ≤ (estimateMetrics "x" [halfMatch]).cpc :=
  estimate_metrics_clamped "x" [halfMatch] (by
    intro m hm
    rw [List.mem_singleton] at hm
    subst hm
    norm_num [halfMatch])

/-- C7: every keyword variant in a batch processed by the composite scorer
leaves with an efficiency index in the closed interval [0, 1]. -/
theorem efficiency_index_bounds (kws : List KeywordVariant) (kv : KeywordVariant)
    (hkv : kv ∈ calculateCompositeMetrics kws) :
    0 ≤ kv.efficiency_index ∧ kv.efficiency_index ≤ 1 := by
  cases kws with
  | nil => simp [calculateCompositeMetrics] at hkv
  | cons a as =>
      simp only [calculateCompositeMetrics, List.isEmpty_cons, Bool.false_eq_true,
        if_false, List.mem_map] at hkv
      obtain ⟨kw, -, rfl⟩ := hkv
      exact ⟨le_max_left 0 _, max_le zero_le_one (min_le_left 1 _)⟩

/-- A minimal scored keyword used to instantiate the batch theorems. -/
def sampleKV : KeywordVariant := mkKV "sample" 5

/-- Witness for C7 at a concrete one-element batch. -/
theorem efficiency_index_bounds_witness :
    0 ≤ ((calculateCompositeMetrics [sampleKV]).headD sampleKV).efficiency_index ∧
      ((calculateCompositeMetrics [sampleKV]).headD sampleKV).efficiency_index ≤ 1 :=
  efficiency_index_bounds [sampleKV] ((calculateCompositeMetrics [sampleKV]).headD sampleKV)
    (by
      have hc : calculateCompositeMetrics [sampleKV] = [compositeUpdate 1 1 sampleKV] := by
        norm_num [calculateCompositeMetrics, pyMax, sampleKV, mkKV]
      rw [hc]
      simp)

/-- Membership in a `zipWith` image comes from members of the two inputs. -/
theorem exists_of_mem_zipWith {α β γ : Type*} {f : α → β → γ} :
    ∀ {as : List α} {bs : List β} {x : γ}, x ∈ List.zipWith f as bs →
      ∃ a ∈ as, ∃ b ∈ bs, x = f a b := by
  intro as
  induction as with
  | nil => intro bs x hx; simp at hx
  | cons a as ih =>
      intro bs x hx
      cases bs with
      | nil => simp at hx
      | cons b bs =>
          rw [List.zipWith_cons_cons, List.mem_cons] at hx
          rcases hx with rfl | hx
          · exact ⟨a, List.mem_cons_self a _, b, List.mem_cons_self b _, rfl⟩
          · obtain ⟨a', ha, b', hb, rfl⟩ := ih hx
            exact ⟨a', List.mem_cons_of_mem _ ha, b', List.mem_cons_of_mem _ hb, rfl⟩

/-- If both cosine-similarity arrays stay in `[0, 1]`, so does their `0.4/0.6`
blend. -/
theorem combined_mem_bounds {charSims wordSims : List ℚ}
    (hc : ∀ c ∈ charSims, 0 ≤ c ∧ c ≤ 1) (hw : ∀ w ∈ wordSims, 0 ≤ w ∧ w ≤ 1) :
    ∀ x ∈ combinedSimilarities charSims wordSims, 0 ≤ x ∧ x ≤ 1 := by
  intro x hx
  unfold combinedSimilarities at hx
  obtain ⟨a, ha, b, hb, rfl⟩ := exists_of_mem_zipWith hx
  obtain ⟨ha0, ha1⟩ := hc a ha
  obtain ⟨hb0, hb1⟩ := hw b hb
  constructor
  · linarith
  · linarith

/-- C6: provided the two cosine-similarity arrays lie in `[0, 1]` (true of
cosine similarity on nonnegative tf-idf vectors), every match returned by
`_find_similar_keywords` has similarity strictly above 0.3 and at most 1. -/
theorem similarity_bounds (corpus : List CorpusEntry) (charSims wordSims : List ℚ)
    (k : String) (n : ℕ)
    (hc : ∀ c ∈ charSims, 0 ≤ c ∧ c ≤ 1) (hw : ∀ w ∈ wordSims, 0 ≤ w ∧ w ≤ 1) :
    ∀ m ∈ findSimilarKeywords corpus charSims wordSims k n,
      (0.3 : ℚ) < m.similarity ∧ m.similarity ≤ 1 := by
  intro m hm
  unfold findSimilarKeywords at hm
  cases hmap : keywordDataMap corpus (pyLower k) with
  | some e =>
      simp only [hmap, List.mem_singleton] at hm
      subst hm
      norm_num
  | none =>
      simp only [hmap, List.mem_filterMap] at hm
      obtain ⟨idx, hidx, hsome⟩ := hm
      by_cases hgt : (combinedSimilarities charSims wordSims).getD idx 0 > 0.3
      · rw [if_pos hgt] at hsome
        cases hcor : corpus[idx]? with
        | some e =>
            simp only [hcor, Option.some.injEq] at hsome
            subst hsome
            refine ⟨hgt, ?_⟩
            by_cases hlen : idx < (combinedSimilarities charSims wordSims).length
            · have hmem : (combinedSimilarities charSims wordSims).getD idx 0
                  ∈ combinedSimilarities charSims wordSims := by
                rw [List.getD_eq_getElem _ _ hlen]
                exact List.getElem_mem hlen
              exact (combined_mem_bounds hc hw _ hmem).2
            · rw [List.getD_eq_default _ _ (le_of_not_lt hlen)] at hgt
              norm_num at hgt
        | none =>
            simp only [hcor] at hsome
            exact Option.noConfusion hsome
      · rw [if_neg hgt] at hsome
        exact absurd hsome (by simp)

/-- A well-formed corpus row used to instantiate the scorer theorems. -/
def corpusEntry1 : CorpusEntry :=
  { keyword := "running shoes", search_volume := 1000, cpc := 3/2,
    keyword_difficulty := 40, competition := 3/5 }

/-- The single-row corpus used to instantiate the scorer theorems. -/
def corpus1 : List CorpusEntry := [corpusEntry1]

/-- A vacuous similarity match (placeholder for `headD`). -/
def noMatch : SimilarityMatch :=
  { keyword := "", similarity := 0,
    metrics := { search_volume := 0, cpc := 0, keyword_difficulty := 0, competition := 0 } }

/-- Witness for C6 at a concrete corpus, similarity arrays and keyword. -/
theorem similarity_bounds_witness :
    (0.3 : ℚ) <
        ((findSimilarKeywords corpus1 [1/2] [9/10] "best shoes" 5).headD noMatch).similarity ∧
      ((findSimilarKeywords corpus1 [1/2] [9/10] "best shoes" 5).headD noMatch).similarity ≤ 1 :=
  similarity_bounds corpus1 [1/2] [9/10] "best shoes" 5
    (by intro c hcm; rw [List.mem_singleton] at hcm; subst hcm; norm_num)
    (by intro w hwm; rw [List.mem_singleton] at hwm; subst hwm; norm_num)
    _
    (by
      have hkey : keywordDataMap corpus1 (pyLower "best shoes") = none := by decide
      have h1 : combinedSimilarities [1/2] [9/10] = [37/50] := by
        norm_num [combinedSimilarities]
      have h2 : argsortAsc [(37 : ℚ)/50] = [0] := by
        simp [argsortAsc, List.insertionSort, List.range_succ]
      have h3 : topIndices [(37 : ℚ)/50] 5 = [0] := by
        simp [topIndices, h2]
      have h4 : findSimilarKeywords corpus1 [1/2] [9/10] "best shoes" 5
          = [{ keyword := "running shoes", similarity := 37/50,
               metrics := entryMetrics corpusEntry1 }] := by
        unfold findSimilarKeywords
        simp only [hkey, h1, h3]
        norm_num [List.filterMap_cons, corpus1, corpusEntry1]
      rw [h4]
      simp)

/-- C4 (amended): the short-circuit fires only when the lower-cased candidate
equals a corpus key verbatim (the keys are the corpus keywords exactly as
stored, not case-normalized); then the scorer returns the single exact match
with similarity 1 and that entry's metrics, independently of the
vector-similarity arrays. -/
theorem exact_match_shortcircuit (corpus : List CorpusEntry)
    (charSims wordSims : List ℚ) (k : String) (n : ℕ) (e : CorpusEntry)
    (h : keywordDataMap corpus (pyLower k) = some e) :
    findSimilarKeywords corpus charSims wordSims k n
      = [{ keyword := pyLower k, similarity := 1, metrics := entryMetrics e }] := by
  unfold findSimilarKeywords
  rw [h]

/-- Witness for C4 (amended): a candidate differing from the stored lowercase
corpus key only by case short-circuits to the exact match whatever the vector
similarities are. -/
theorem exact_match_shortcircuit_witness :
    findSimilarKeywords corpus1 [1] [1] "Running SHOES" 5
      = [{ keyword := pyLower "Running SHOES", similarity := 1,
           metrics := entryMetrics corpusEntry1 }] :=
  exact_match_shortcircuit corpus1 [1] [1] "Running SHOES" 5 corpusEntry1 rfl

/-- A corpus row whose stored keyword contains uppercase letters. -/
def corpusEntry2 : CorpusEntry :=
  { keyword := "Running Shoes", search_volume := 1000, cpc := 2,
    keyword_difficulty := 40, competition := 1 }

/-- The corpus holding only `corpusEntry2`. -/
def corpus2 : List CorpusEntry := [corpusEntry2]

/-- C4 counterexample: the exact-match dictionary keys are not lower-cased, so
the candidate "running shoes", equal to the stored "Running Shoes" up to case,
misses the dictionary and the scorer proceeds to the vector-similarity path —
refuting "without computing any vector similarity".  Both vectorizers
lower-case their input, so on this pair the two cosine similarities the real
computation produces are exactly 1, i.e. the arrays are `[1]`, `[1]`; at those
arrays the code returns the vector-path match carrying the stored keyword
"Running Shoes", which is not the lower-cased singleton the short-circuit
path would have produced. -/
theorem exact_match_case_counterexample :
    pyLower "running shoes" = pyLower "Running Shoes" ∧
      keywordDataMap corpus2 (pyLower "running shoes") = none ∧
      findSimilarKeywords corpus2 [1] [1] "running shoes" 5
        = [{ keyword := "Running Shoes", similarity := 1,
             metrics := entryMetrics corpusEntry2 }] ∧
      findSimilarKeywords corpus2 [1] [1] "running shoes" 5
        ≠ [{ keyword := pyLower "running shoes", similarity := 1,
             metrics := entryMetrics corpusEntry2 }] := by
  have hkey : keywordDataMap corpus2 (pyLower "running shoes") = none := by decide
  have h1 : combinedSimilarities [1] [1] = [1] := by norm_num [combinedSimilarities]
  have h2 : argsortAsc [(1 : ℚ)] = [0] := by
    simp [argsortAsc, List.insertionSort, List.range_succ]
  have h3 : topIndices [(1 : ℚ)] 5 = [0] := by
    simp [topIndices, h2]
  have hres : findSimilarKeywords corpus2 [1] [1] "running shoes" 5
      = [{ keyword := "Running Shoes", similarity := 1,
           metrics := entryMetrics corpusEntry2 }] := by
    unfold findSimilarKeywords
    simp only [hkey, h1, h3]
    norm_num [List.filterMap_cons, corpus2, corpusEntry2]
  refine ⟨by decide, hkey, hres, ?_⟩
  rw [hres]
  decide

/-- The confidence value `_estimate_metrics` attaches to its result, written
as a standalone expression of the match list: 0 on the empty and zero-weight
(swallowed `ZeroDivisionError`) paths, 1 on the exact-match path, otherwise
`min(1, total_weight / len(matches) * 2)`. -/
def confValue (ms : List SimilarityMatch) : ℚ :=
  if ms.isEmpty then 0
  else if ms.any (fun kw => decide (kw.similarity > 0.99)) then 1
  else if totalWeight ms = 0 then 0
  else min 1 (totalWeight ms / (ms.length : ℚ) * 2)

/-- The confidence field of `_estimate_metrics` equals `confValue`. -/
theorem confidence_eq (k : String) (ms : List SimilarityMatch) :
    (estimateMetrics k ms).confidence = confValue ms := by
  unfold estimateMetrics confValue
  by_cases he : ms.isEmpty = true
  · simp [he, defaultEstimate]
  · simp only [he, Bool.false_eq_true, if_false]
    cases hfind : ms.find? (fun kw => decide (kw.similarity > 0.99)) with
    | some kw =>
        have hany : ms.any (fun kw => decide (kw.similarity > 0.99)) = true := by
          rw [List.any_eq_true]
          refine ⟨kw, List.mem_of_find?_eq_some hfind, ?_⟩
          exact @List.find?_some _ (fun kw => decide (kw.similarity > 0.99)) kw ms hfind
        simp [hany]
    | none =>
        have hany : ms.any (fun kw => decide (kw.similarity > 0.99)) = false := by
          rw [Bool.eq_false_iff]
          intro hcontra
          rw [List.any_eq_true] at hcontra
          obtain ⟨x, hx, hpx⟩ := hcontra
          exact absurd hpx (by simpa using List.find?_eq_none.mp hfind x hx)
        simp only [hany, Bool.false_eq_true, if_false]
        by_cases htw : totalWeight ms = 0
        · simp [htw, defaultEstimate]
        · simp [htw]

/-- `confValue` never exceeds 1. -/
theorem confValue_le_one (ms : List SimilarityMatch) : confValue ms ≤ 1 := by
  unfold confValue
  split
  · norm_num
  · split
    · norm_num
    · split
      · norm_num
      · exact min_le_left 1 _

/-- Appending one match of positive similarity at least as large as every
similarity already present cannot decrease `confValue`. -/
theorem confValue_append_mono (A : List SimilarityMatch) (e : SimilarityMatch)
    (hpos : 0 < e.similarity) (hmax : ∀ m ∈ A, m.similarity ≤ e.similarity) :
    confValue A ≤ confValue (A ++ [e]) := by
  have htwB : totalWeight (A ++ [e]) = totalWeight A + e.similarity := by
    unfold totalWeight
    rw [List.map_append, List.sum_append]
    simp
  have hBne : ¬ (A ++ [e]).isEmpty = true := by
    simp
  by_cases hA : A.isEmpty = true
  · rw [List.isEmpty_iff] at hA
    subst hA
    unfold confValue
    simp only [List.nil_append, List.isEmpty_cons, Bool.false_eq_true, if_false,
      List.isEmpty_nil, if_true]
    by_cases hp : [e].any (fun kw => decide (kw.similarity > 0.99)) = true
    · rw [if_pos hp]
      norm_num
    · rw [if_neg hp]
      have htw1 : totalWeight [e] = e.similarity := by simp [totalWeight]
      rw [htw1, if_neg (ne_of_gt hpos)]
      refine le_min (by norm_num) ?_
      have hden : (0 : ℚ) < (([e].length : ℕ) : ℚ) := by norm_num
      exact mul_nonneg (div_nonneg hpos.le hden.le) (by norm_num)
  · have hAne : A ≠ [] := by
      intro hcon
      subst hcon
      exact hA rfl
    have hAlen : 0 < ((A.length : ℕ) : ℚ) := by
      exact_mod_cast List.length_pos.mpr hAne
    by_cases hany : A.any (fun kw => decide (kw.similarity > 0.99)) = true
    · have hanyB : (A ++ [e]).any (fun kw => decide (kw.similarity > 0.99)) = true := by
        rw [List.any_append, hany, Bool.true_or]
      unfold confValue
      rw [if_neg hA, if_pos hany, if_neg hBne, if_pos hanyB]
    · have hanyA : A.any (fun kw => decide (kw.similarity > 0.99)) = false :=
        Bool.eq_false_iff.mpr hany
      by_cases hpe : (0.99 : ℚ) < e.similarity
      · have hanyB : (A ++ [e]).any (fun kw => decide (kw.similarity > 0.99)) = true := by
          rw [List.any_append, hanyA]
          simp [hpe]
        calc confValue A ≤ 1 := confValue_le_one A
          _ = confValue (A ++ [e]) := by
              unfold confValue
              rw [if_neg hBne, if_pos hanyB]
      · have hanyB : (A ++ [e]).any (fun kw => decide (kw.similarity > 0.99)) = false := by
          rw [List.any_append, hanyA]
          simp [hpe]
        have hanyB' : ¬ ((A ++ [e]).any fun kw => decide (kw.similarity > 0.99)) = true := by
          simp [hanyB]
        unfold confValue
        rw [if_neg hA, if_neg hany, if_neg hBne, if_neg hanyB', htwB]
        simp only [List.length_append, List.length_singleton]
        push_cast
        by_cases htwA : totalWeight A = 0
        · rw [if_pos htwA, htwA, zero_add, if_neg (ne_of_gt hpos)]
          refine le_min (by norm_num) ?_
          exact mul_nonneg (div_nonneg hpos.le (by linarith)) (by norm_num)
        · by_cases htwB0 : totalWeight A + e.similarity = 0
          · rw [if_neg htwA, if_pos htwB0]
            have hTA : totalWeight A ≤ 0 := by linarith
            have h2 : totalWeight A / ((A.length : ℕ) : ℚ) ≤ 0 :=
              div_nonpos_iff.mpr (Or.inr ⟨hTA, hAlen.le⟩)
            have hneg : totalWeight A / ((A.length : ℕ) : ℚ) * 2 ≤ 0 := by linarith
            exact le_trans (min_le_right _ _) hneg
          · rw [if_neg htwA, if_neg htwB0]
            apply min_le_min le_rfl
            have hsum : totalWeight A ≤ ((A.length : ℕ) : ℚ) * e.similarity := by
              have hb : ∀ x ∈ A.map (fun kw => kw.similarity), x ≤ e.similarity := by
                intro x hx
                obtain ⟨m, hm, rfl⟩ := List.mem_map.mp hx
                exact hmax m hm
              have hs := List.sum_le_card_nsmul (A.map (fun kw => kw.similarity))
                e.similarity hb
              rw [List.length_map, nsmul_eq_mul] at hs
              exact hs
            have key : totalWeight A / ((A.length : ℕ) : ℚ)
                ≤ (totalWeight A + e.similarity) / (((A.length : ℕ) : ℚ) + 1) := by
              rw [div_le_div_iff₀ hAlen (by linarith)]
              nlinarith [hsum]
            linarith [key]

/-- C8: adding one supporting match of strictly positive similarity, at least
as large as every similarity already present, never decreases the confidence
computed by `_estimate_metrics`. -/
theorem confidence_monotone (k : String) (A : List SimilarityMatch)
    (e : SimilarityMatch) (hpos : 0 < e.similarity)
    (hmax : ∀ m ∈ A, m.similarity ≤ e.similarity) :
    (estimateMetrics k A).confidence ≤ (estimateMetrics k (A ++ [e])).confidence := by
  rw [confidence_eq, confidence_eq]
  exact confValue_append_mono A e hpos hmax

/-- A non-exact match of similarity three fifths. -/
def sixtyMatch : SimilarityMatch :=
  { keyword := "far", similarity := 3/5, metrics := badMetrics }

/-- Witness for C8 at concrete one- and two-element match lists. -/
theorem confidence_monotone_witness :
    (estimateMetrics "x" [halfMatch]).confidence ≤
      (estimateMetrics "x" ([halfMatch] ++ [sixtyMatch])).confidence :=
  confidence_monotone "x" [halfMatch] sixtyMatch (by norm_num [sixtyMatch])
    (by
      intro m hm
      rw [List.mem_singleton] at hm
      subst hm
      norm_num [halfMatch, sixtyMatch])

/-- A seven-element batch: six one-word keywords with descending integer
efficiencies and one question keyword with the lowest efficiency. -/
def exBatch : List KeywordVariant :=
  [mkKV "alpha" 9, mkKV "beta" 8, mkKV "gamma" 7, mkKV "delta" 6,
   mkKV "epsilon" 5, mkKV "zeta" 4, mkKV "what now" 1]

/-- C2 counterexample: on a batch of 7 (fewer than 12) keywords the ranker
returns all 7, but not sorted by efficiency descending: the question keyword
(efficiency 1) is placed inside the diverse top, ahead of the sixth short-tail
keyword (efficiency 4) that missed the short-tail quota of 5. -/
theorem rank_sorted_counterexample :
    exBatch.length < 12 ∧
      rankAndPrioritize exBatch
        = [mkKV "alpha" 9, mkKV "beta" 8, mkKV "gamma" 7, mkKV "delta" 6,
           mkKV "epsilon" 5, mkKV "what now" 1, mkKV "zeta" 4] ∧
      ¬ List.Sorted effGeProp (rankAndPrioritize exBatch) := by
  refine ⟨by decide, by decide, ?_⟩
  intro hsorted
  have h45 : effGeProp (mkKV "what now" 1) (mkKV "zeta" 4) := by
    have hrank : rankAndPrioritize exBatch
        = [mkKV "alpha" 9, mkKV "beta" 8, mkKV "gamma" 7, mkKV "delta" 6,
           mkKV "epsilon" 5, mkKV "what now" 1, mkKV "zeta" 4] := by decide
    rw [hrank] at hsorted
    simp only [List.sorted_cons, List.mem_cons, List.mem_singleton] at hsorted
    exact hsorted.2.2.2.2.2.1 (mkKV "zeta" 4) (Or.inl rfl)
  revert h45
  decide

/-- Sorting by descending efficiency permutes the list. -/
theorem effDescSort_perm (l : List KeywordVariant) : (effDescSort l).Perm l :=
  List.perm_insertionSort effGeProp l

/-- A member of a truncated sorted bucket is a member of the base list
satisfying the bucket predicate. -/
theorem mem_of_mem_take_sort {p : KeywordVariant → Bool} {kws : List KeywordVariant}
    {n : ℕ} {x : KeywordVariant}
    (hx : x ∈ (effDescSort (kws.filter p)).take n) : x ∈ kws ∧ p x = true := by
  have h1 : x ∈ effDescSort (kws.filter p) := List.take_subset n _ hx
  have h2 : x ∈ kws.filter p := (effDescSort_perm _).subset h1
  exact ⟨(List.mem_filter.mp h2).1, (List.mem_filter.mp h2).2⟩

/-- Truncated sorted buckets of a duplicate-free list are duplicate-free. -/
theorem nodup_take_sort {p : KeywordVariant → Bool} {kws : List KeywordVariant}
    (h : kws.Nodup) (n : ℕ) : ((effDescSort (kws.filter p)).take n).Nodup := by
  have h1 : (kws.filter p).Nodup := h.filter p
  have h2 : (effDescSort (kws.filter p)).Nodup := h1.perm (effDescSort_perm _).symm
  exact (List.take_sublist n _).nodup h2

/-- Buckets cut from mutually exclusive predicates are disjoint. -/
theorem take_sort_disjoint {p q : KeywordVariant → Bool} {kws : List KeywordVariant}
    {n m : ℕ} (hpq : ∀ x, ¬ (p x = true ∧ q x = true)) :
    List.Disjoint ((effDescSort (kws.filter p)).take n)
      ((effDescSort (kws.filter q)).take m) := by
  intro a ha hb
  exact hpq a ⟨(mem_of_mem_take_sort ha).2, (mem_of_mem_take_sort hb).2⟩

theorem short_medium_excl (x : KeywordVariant) :
    ¬ (inShortTail x = true ∧ inMediumTail x = true) := by
  unfold inShortTail inMediumTail
  cases h2 : decide (wordCount x.keyword ≤ 2) <;> simp [h2]

theorem short_long_excl (x : KeywordVariant) :
    ¬ (inShortTail x = true ∧ inLongTail x = true) := by
  unfold inShortTail inLongTail
  cases h2 : decide (wordCount x.keyword ≤ 2) <;> simp [h2]

theorem short_question_excl (x : KeywordVariant) :
    ¬ (inShortTail x = true ∧ inQuestionBucket x = true) := by
  unfold inShortTail inQuestionBucket
  cases hq : isQuestionKeyword x.keyword <;> simp [hq]

theorem medium_long_excl (x : KeywordVariant) :
    ¬ (inMediumTail x = true ∧ inLongTail x = true) := by
  unfold inMediumTail inLongTail
  cases h4 : decide (wordCount x.keyword ≤ 4) <;> simp [h4]

theorem medium_question_excl (x : KeywordVariant) :
    ¬ (inMediumTail x = true ∧ inQuestionBucket x = true) := by
  unfold inMediumTail inQuestionBucket
  cases hq : isQuestionKeyword x.keyword <;> simp [hq]

theorem long_question_excl (x : KeywordVariant) :
    ¬ (inLongTail x = true ∧ inQuestionBucket x = true) := by
  unfold inLongTail inQuestionBucket
  cases hq : isQuestionKeyword x.keyword <;> simp [hq]

/-- Every element of the diverse top comes from the ranked list. -/
theorem diverseTop_subset (kws : List KeywordVariant) :
    diverseTop kws ⊆ rankedOf kws := by
  intro x hx
  unfold diverseTop at hx
  have hx' := (effDescSort_perm _).subset hx
  simp only [List.mem_append] at hx'
  rcases hx' with ((h1 | h2) | h3) | h4
  · exact (mem_of_mem_take_sort h1).1
  · exact (mem_of_mem_take_sort h2).1
  · exact (mem_of_mem_take_sort h3).1
  · exact (mem_of_mem_take_sort h4).1

/-- For a duplicate-free batch the diverse top is duplicate-free. -/
theorem diverseTop_nodup (kws : List KeywordVariant) (h : kws.Nodup) :
    (diverseTop kws).Nodup := by
  have hr : (rankedOf kws).Nodup := h.perm (List.perm_insertionSort effGeProp kws).symm
  unfold diverseTop
  refine List.Nodup.perm ?_ (effDescSort_perm _).symm
  refine List.Nodup.append (List.Nodup.append (List.Nodup.append
    (nodup_take_sort hr 5) (nodup_take_sort hr 8) (take_sort_disjoint short_medium_excl))
    (nodup_take_sort hr 5) ?_) (nodup_take_sort hr 3) ?_
  · rw [List.disjoint_append_left]
    exact ⟨take_sort_disjoint short_long_excl, take_sort_disjoint medium_long_excl⟩
  · rw [List.disjoint_append_left, List.disjoint_append_left]
    exact ⟨⟨take_sort_disjoint short_question_excl, take_sort_disjoint medium_question_excl⟩,
      take_sort_disjoint long_question_excl⟩

/-- C2 (amended): `_rank_and_prioritize` has no `total_needed` parameter and
does not truncate: for a batch of pairwise-distinct scored keywords it returns
a permutation of the whole input — the diversity selection (top 5 short-tail,
8 medium-tail, 5 long-tail, 3 question-based) sorted by efficiency descending,
followed by all remaining keywords. -/
theorem rank_perm_of_nodup (kws : List KeywordVariant) (h : kws.Nodup) :
    (rankAndPrioritize kws).Perm kws := by
  by_cases he : kws.isEmpty = true
  · rw [List.isEmpty_iff] at he
    subst he
    exact List.Perm.nil
  · unfold rankAndPrioritize
    rw [if_neg he]
    have hr : (rankedOf kws).Nodup := h.perm (List.perm_insertionSort effGeProp kws).symm
    have hDT : (diverseTop kws).Nodup := diverseTop_nodup kws h
    have hDTsub : diverseTop kws ⊆ rankedOf kws := diverseTop_subset kws
    have h1 : ((rankedOf kws).filter (fun k => decide (k ∈ diverseTop kws))).Perm
        (diverseTop kws) := by
      rw [List.perm_ext_iff_of_nodup (hr.filter _) hDT]
      intro a
      rw [List.mem_filter]
      constructor
      · rintro ⟨-, ha⟩
        simpa using ha
      · intro ha
        exact ⟨hDTsub ha, by simpa using ha⟩
    have h2 : (diverseTop kws
          ++ (rankedOf kws).filter (fun k => decide (¬ k ∈ diverseTop kws))).Perm
        ((rankedOf kws).filter (fun k => decide (k ∈ diverseTop kws))
          ++ (rankedOf kws).filter (fun k => decide (¬ k ∈ diverseTop kws))) :=
      List.Perm.append_right _ h1.symm
    have hpred : (fun k => decide (¬ k ∈ diverseTop kws))
        = (fun k => !(decide (k ∈ diverseTop kws))) := by
      funext k
      exact decide_not
    have h3 : ((rankedOf kws).filter (fun k => decide (k ∈ diverseTop kws))
          ++ (rankedOf kws).filter (fun k => decide (¬ k ∈ diverseTop kws))).Perm
        (rankedOf kws) := by
      rw [hpred]
      exact List.filter_append_perm _ (rankedOf kws)
    exact (h2.trans h3).trans (List.perm_insertionSort effGeProp kws)

/-- Witness for C2 (amended) at a concrete duplicate-free batch. -/
theorem rank_perm_of_nodup_witness :
    (rankAndPrioritize [mkKV "alpha" 9, mkKV "what now" 1]).Perm
      [mkKV "alpha" 9, mkKV "what now" 1] :=
  rank_perm_of_nodup [mkKV "alpha" 9, mkKV "what now" 1] (by decide)
